import Mathlib

/-!
Verification development for the benchmark toolkit remote execution agent
(`src/benchmark/workload/executor/base_workload_executor.py`), the Ollama
executor config validation (`ollama_workload_executor.py`), and the
orchestrator polling loop (`src/benchmark/orchestrator.py`).

Embedding conventions:
- Python floats are embedded as `ℚ` (the claims concern selection, ordering
  and exact zero/division guards, not rounding of float arithmetic; for the
  percentile index formulas at p ∈ {50, 90, 99} the float and rational
  computations provably select the same rank).
- Python dicts with a fixed key set are embedded as structures whose fields
  hold the values `dict.get(key, default)` returns.
- The Flask handlers are embedded as pure state-transition functions on the
  executor mutable fields; thread spawning is recorded as a boolean flag.
-/

/-- The Python built-in `round` on a nonnegative value: round half to even
(half-even rounding), as used by `int(round(...))` in
`BaseWorkloadExecutor._aggregate_metrics.percentile`. -/
def pyRound (q : ℚ) : ℤ :=
  if q - ⌊q⌋ < 1 / 2 then ⌊q⌋
  else if 1 / 2 < q - ⌊q⌋ then ⌊q⌋ + 1
  else if ⌊q⌋ % 2 = 0 then ⌊q⌋ else ⌊q⌋ + 1

/-- The Python `int(...)` truncation applied to a float. Every use in the
embedded code has a nonnegative argument, where truncation equals floor. -/
def pyInt (q : ℚ) : ℤ := ⌊q⌋

/-- Index picked by the final-aggregation percentile closure:
`idx = int(round((p / 100.0) * (len(all_latencies) - 1)))`
(`base_workload_executor.py` line 335). -/
def percentileIdx (n : ℕ) (p : ℚ) : ℕ :=
  (pyRound (p / 100 * ((n : ℚ) - 1))).toNat

/-- The `percentile` closure of `BaseWorkloadExecutor._aggregate_metrics`
(lines 331-336): takes the ascending-sorted latency list, returns `0.0` when
it is empty, otherwise the element at the nearest-rank index. -/
def percentile (all_latencies : List ℚ) (p : ℚ) : ℚ :=
  if all_latencies.isEmpty then 0
  else all_latencies.getD (percentileIdx all_latencies.length p) 0

/-- Index used by the live snapshot in
`BaseWorkloadExecutor._snapshot_current_metrics` (lines 390-392):
`all_latencies[int(n * 0.50)]` and analogously for 0.90, 0.99. -/
def livePercentileIdx (n : ℕ) (p : ℚ) : ℕ :=
  (pyInt ((n : ℚ) * (p / 100))).toNat

/-- One entry of `self.thread_metrics`: the dict a worker thread appends in
`_workload_wrapper.thread_target`. A successful `_run_benchmark` returns the
metric keys; a thread that raised appends `{"error": str(e), "thread_id": i}`
(modelled by `error = some msg`, with the metric fields holding the defaults
`dict.get` would then produce in `_aggregate_metrics`). -/
structure ThreadMetric where
  error : Option String
  thread_id : ℕ
  total_requests : ℕ
  errors : ℕ
  total_latency : ℚ
  elapsed_seconds : ℚ
  latencies : List ℚ
deriving Repr, DecidableEq

/-- One value of `self.per_thread_metrics` (keyed by thread id in the
source): the dict a worker updates during execution, read by the sampler. -/
structure WorkerSnap where
  requests : ℕ
  errors : ℕ
  total_latency : ℚ
  elapsed : ℚ
  latencies : List ℚ
deriving Repr, DecidableEq

/-- Accumulator of the `for thread_metric in self.thread_metrics` loop of
`_aggregate_metrics` (lines 306-322). -/
structure AggLoopState where
  total_requests : ℕ
  total_errors : ℕ
  total_latency : ℚ
  total_elapsed : ℚ
  error_threads : List ThreadMetric
  all_latencies : List ℚ
deriving Repr, DecidableEq

/-- One iteration of the aggregation loop: an entry carrying an `"error"`
key is appended to `error_threads` and skipped (`continue`); otherwise the
numeric fields are accumulated, `total_elapsed` by `max`, and the latencies of the entry are extended onto `all_latencies`. -/
def aggLoopStep (acc : AggLoopState) (t : ThreadMetric) : AggLoopState :=
  if t.error.isSome then
    { acc with error_threads := acc.error_threads ++ [t] }
  else
    { acc with
      total_requests := acc.total_requests + t.total_requests
      total_errors := acc.total_errors + t.errors
      total_latency := acc.total_latency + t.total_latency
      total_elapsed := max acc.total_elapsed t.elapsed_seconds
      all_latencies := acc.all_latencies ++ t.latencies }

/-- The aggregation loop of `_aggregate_metrics`, starting from the
initializers `total_requests = 0`, `total_errors = 0`, `total_latency = 0.0`,
`total_elapsed = 0.0`, `error_threads = []`, `all_latencies = []`. -/
def aggLoop (thread_metrics : List ThreadMetric) : AggLoopState :=
  thread_metrics.foldl aggLoopStep ⟨0, 0, 0, 0, [], []⟩

/-- The dict `_aggregate_metrics` stores into `self.metrics` (lines 343-355).
The passthrough of the config keys `model`/`duration` is omitted: it copies
configuration text and affects no computed field. -/
structure AggregateMetrics where
  total_requests : ℕ
  errors : ℕ
  elapsed_seconds : ℚ
  avg_latency_seconds : ℚ
  p50_latency_seconds : ℚ
  p90_latency_seconds : ℚ
  p99_latency_seconds : ℚ
  throughput_rps : ℚ
  num_threads : ℕ
  thread_errors : Option (List ThreadMetric)
deriving Repr, DecidableEq

/-- `BaseWorkloadExecutor._aggregate_metrics` (lines 291-355). Returns `none`
for the early-return branch that stores
`{"error": "No metrics collected from threads"}` when `thread_metrics` is
empty. `all_latencies.sort()` is the in-place ascending sort, embedded as
`mergeSort`; `thread_errors` is `error_threads if error_threads else None`. -/
def aggregate_metrics (thread_metrics : List ThreadMetric) :
    Option AggregateMetrics :=
  if thread_metrics.isEmpty then none
  else
    let acc := aggLoop thread_metrics
    let avg_latency : ℚ :=
      if 0 < acc.total_requests then acc.total_latency / (acc.total_requests : ℚ) else 0
    let throughput : ℚ :=
      if 0 < acc.total_elapsed then (acc.total_requests : ℚ) / acc.total_elapsed else 0
    let sorted := acc.all_latencies.mergeSort
    some
      { total_requests := acc.total_requests
        errors := acc.total_errors
        elapsed_seconds := acc.total_elapsed
        avg_latency_seconds := avg_latency
        p50_latency_seconds := percentile sorted 50
        p90_latency_seconds := percentile sorted 90
        p99_latency_seconds := percentile sorted 99
        throughput_rps := throughput
        num_threads := thread_metrics.length
        thread_errors :=
          if acc.error_threads.isEmpty then none else some acc.error_threads }

/-- All individual request latencies contributing to the aggregation: the
concatenation, in loop order, of the latency lists of the entries that carry
no `"error"` key. -/
def allLatencies (thread_metrics : List ThreadMetric) : List ℚ :=
  ((thread_metrics.filter fun t => t.error.isNone).map
    (fun t => t.latencies)).flatten

/-- Accumulator of the `for _, tdata in self.per_thread_metrics.items()` loop
of `_snapshot_current_metrics` (lines 375-380). -/
structure SnapLoopState where
  total_requests : ℕ
  total_errors : ℕ
  total_latency : ℚ
  max_elapsed : ℚ
  all_latencies : List ℚ
deriving Repr, DecidableEq

/-- One iteration of the snapshot loop (no error filtering there). -/
def snapLoopStep (acc : SnapLoopState) (t : WorkerSnap) : SnapLoopState :=
  { total_requests := acc.total_requests + t.requests
    total_errors := acc.total_errors + t.errors
    total_latency := acc.total_latency + t.total_latency
    max_elapsed := max acc.max_elapsed t.elapsed
    all_latencies := acc.all_latencies ++ t.latencies }

/-- The snapshot loop, from the initializers at lines 369-373. -/
def snapLoop (per_thread : List WorkerSnap) : SnapLoopState :=
  per_thread.foldl snapLoopStep ⟨0, 0, 0, 0, []⟩

/-- The dict `_snapshot_current_metrics` merges into `self.metrics` via
`update` (lines 394-404). -/
structure SnapshotMetrics where
  total_requests : ℕ
  errors : ℕ
  elapsed_seconds : ℚ
  avg_latency_seconds : ℚ
  p50_latency_seconds : ℚ
  p90_latency_seconds : ℚ
  p99_latency_seconds : ℚ
  throughput_rps : ℚ
  num_threads : ℕ
deriving Repr, DecidableEq

/-- The computation of `_snapshot_current_metrics` on a non-empty
`per_thread_metrics` map (lines 369-404): sums, `max_elapsed`, guarded
divisions, and the live percentiles `all_latencies[int(n * 0.50)]` etc. after
the in-place ascending sort. -/
def snapshotAggregate (per_thread : List WorkerSnap) : SnapshotMetrics :=
  let acc := snapLoop per_thread
  let avg_latency : ℚ :=
    if 0 < acc.total_requests then acc.total_latency / (acc.total_requests : ℚ) else 0
  let throughput : ℚ :=
    if 0 < acc.max_elapsed then (acc.total_requests : ℚ) / acc.max_elapsed else 0
  let sorted := acc.all_latencies.mergeSort
  let n := acc.all_latencies.length
  { total_requests := acc.total_requests
    errors := acc.total_errors
    elapsed_seconds := acc.max_elapsed
    avg_latency_seconds := avg_latency
    p50_latency_seconds :=
      if acc.all_latencies.isEmpty then 0 else sorted.getD (livePercentileIdx n 50) 0
    p90_latency_seconds :=
      if acc.all_latencies.isEmpty then 0 else sorted.getD (livePercentileIdx n 90) 0
    p99_latency_seconds :=
      if acc.all_latencies.isEmpty then 0 else sorted.getD (livePercentileIdx n 99) 0
    throughput_rps := throughput
    num_threads := per_thread.length }

/-- The shapes `self.metrics` takes over the lifetime of an executor: `{}` after
`__init__` or the start-handler reset, the init/snapshot dict while running,
the final aggregate, or the `{"error": ...}` dict of the empty-metrics
branch. -/
inductive MetricsDict where
  | empty
  | live (m : SnapshotMetrics)
  | final (m : AggregateMetrics)
  | aggError (msg : String)
deriving Repr, DecidableEq

/-- The workload configuration fields read by the embedded code paths:
`server_endpoints`, `model` (with `model = none` for an absent or falsy
value), `num_threads`. Represents a *non-empty* (truthy) JSON object. -/
structure WorkloadConfig where
  server_endpoints : List String
  model : Option String
  num_threads : ℕ
deriving Repr, DecidableEq

/-- The body of a POST `/start` request as seen through
`request.get_json()`: `noBody` for the case where `not workload_config` is
true in Python (no body, or an empty/falsy JSON object); `config` for a
non-empty JSON object. -/
inductive StartBody where
  | noBody
  | config (cfg : WorkloadConfig)
deriving Repr, DecidableEq

/-- The executor mutable fields touched by the `/start`, `/stop` and
`/metrics` handlers. `shared_resources` is modelled by its key set (values
are service-specific datasets, irrelevant to the embedded control flow);
`workload_thread` records whether the handler started a workload thread. -/
structure AgentState where
  workload_running : Bool
  workload_error : Option String
  metrics : MetricsDict
  thread_metrics : List ThreadMetric
  shared_resources : List String
  workload_thread : Bool
deriving Repr, DecidableEq

/-- JSON body of a `/start` response. -/
structure StartResponse where
  success : Bool
  message : Option String
  error : Option String
  status : ℕ
deriving Repr, DecidableEq

/-- JSON body of a `/stop` response. -/
structure StopResponse where
  success : Bool
  message : Option String
  status : ℕ
deriving Repr, DecidableEq

/-- JSON body of the default (JSON) branch of the `/metrics` handler
(lines 124-128). -/
structure MetricsResponse where
  running : Bool
  metrics : MetricsDict
  error : Option String
deriving Repr, DecidableEq

/-- The `/start` handler `start_workload` (lines 70-111): reject with 400 if
already running; reject with 400 if the parsed body is falsy; otherwise reset
`metrics`, `workload_error`, `thread_metrics`, `shared_resources`, set
`workload_running = True`, start the workload thread, and answer 200. The
`except` branch (500) models interpreter failures and is unreachable in the
embedding. -/
def start_workload (st : AgentState) (body : StartBody) :
    AgentState × StartResponse :=
  if st.workload_running then
    (st, { success := false, message := none,
           error := some "Workload already running", status := 400 })
  else
    match body with
    | .noBody =>
        (st, { success := false, message := none,
               error := some "No workload configuration provided", status := 400 })
    | .config _ =>
        ({ st with
            metrics := .empty
            workload_error := none
            workload_running := true
            thread_metrics := []
            shared_resources := []
            workload_thread := true },
         { success := true, message := some "Workload started",
           error := none, status := 200 })

/-- The bounded join timeout (seconds) used by the `/stop` handler:
`self.workload_thread.join(timeout=10)` (line 148). -/
def stop_join_timeout : ℚ := 10

/-- The `/stop` handler `stop_workload` (lines 135-159): a no-op success when
nothing is running; otherwise clear `workload_running` and join the workload
thread with the bounded timeout (the join waits but mutates no embedded
field). -/
def stop_workload (st : AgentState) : AgentState × StopResponse :=
  if !st.workload_running then
    (st, { success := true, message := some "No workload running", status := 200 })
  else
    ({ st with workload_running := false },
     { success := true, message := some "Workload stopped", status := 200 })

/-- The default JSON branch of the `/metrics` handler `get_metrics`
(lines 124-128). -/
def get_metrics (st : AgentState) : MetricsResponse :=
  { running := st.workload_running, metrics := st.metrics,
    error := st.workload_error }

/-- The configuration validation at the top of
`OllamaWorkloadExecutor._run_benchmark` (lines 66-73): the `ValueError`
message raised for an empty `server_endpoints` list or a falsy `model`, or
`none` when validation passes. -/
def run_benchmark_config_error (cfg : WorkloadConfig) : Option String :=
  if cfg.server_endpoints.isEmpty then
    some "No server_endpoints provided in workload config"
  else if cfg.model.isNone then
    some "No model specified in workload config"
  else none

/-- The entry `_workload_wrapper.thread_target` appends to
`self.thread_metrics` when `_run_benchmark` raises (line 223):
`{"error": str(e), "thread_id": thread_idx}`. -/
def thread_error_entry (e : String) (thread_idx : ℕ) : ThreadMetric :=
  { error := some e, thread_id := thread_idx, total_requests := 0,
    errors := 0, total_latency := 0, elapsed_seconds := 0, latencies := [] }

/-- The parsed response of one node as recorded by
`BaseWorkloadController.fetch_metrics` (lines 106-133): the agent endpoint `/metrics` JSON body on success, or the `{"error": ...}` dict recorded on a
non-200 status or a fetch exception (which carries no `"running"` key). -/
inductive NodeMetrics where
  | payload (running : Bool) (metrics : MetricsDict) (error : Option String)
  | fetchFailure (msg : String)
deriving Repr, DecidableEq

/-- `m.get("running", True)` as evaluated by `_poll_until_done` (line 250):
a node whose fetch failed has no `"running"` key and defaults to `True`. -/
def runningStatus (m : NodeMetrics) : Bool :=
  match m with
  | .payload r _ _ => r
  | .fetchFailure _ => true

/-- `all(not r for r in running_status)` (line 252): every polled node
reports a run state that is no longer running. -/
def allDone (ms : List NodeMetrics) : Bool :=
  ms.all fun m => !runningStatus m

/-- The body of `orchestrator._poll_until_done` (lines 246-256), unrolled
over an observation horizon: `trace k` is the list of per-node fetch results
of the `k`-th poll; `fuel` bounds how many polls we observe. `some k` means
the loop returned at poll `k`; `none` means it was still polling after
`fuel` iterations (the real loop has no timeout of its own). -/
def pollAux (trace : ℕ → List NodeMetrics) : ℕ → ℕ → Option ℕ
  | 0, _ => none
  | fuel + 1, k => if allDone (trace k) then some k else pollAux trace fuel (k + 1)

/-- `_poll_until_done`, observed from the first poll. -/
def poll_until_done (trace : ℕ → List NodeMetrics) (fuel : ℕ) : Option ℕ :=
  pollAux trace fuel 0

/-- The executor fields touched by `_snapshot_current_metrics`
(lines 363-406): the per-thread metrics map, the published current metrics,
and the `self.snapshots` history (timestamps omitted: wall-clock time plays
no role in the history size or contents here). -/
structure ExecutorSnapState where
  per_thread_metrics : List WorkerSnap
  metrics : MetricsDict
  snapshots : List SnapshotMetrics
deriving Repr, DecidableEq

/-- A single sampler tick calling `_snapshot_current_metrics`: early return when
the per-thread map is empty; otherwise publish the aggregate as the current
metrics and append it to `self.snapshots` (line 406). -/
def snapshot_current_metrics (st : ExecutorSnapState) : ExecutorSnapState :=
  if st.per_thread_metrics.isEmpty then st
  else
    let m := snapshotAggregate st.per_thread_metrics
    { st with metrics := .live m, snapshots := st.snapshots ++ [m] }

/-- `k` consecutive sampler ticks of `_metrics_monitoring_loop`
(lines 357-361), each invoking `_snapshot_current_metrics`. -/
def iterSnapshots : ℕ → ExecutorSnapState → ExecutorSnapState
  | 0, st => st
  | k + 1, st => iterSnapshots k (snapshot_current_metrics st)

/-- A concrete two-node polling trace: both nodes still running at polls 0
and 1 (one of them via a failed fetch, which `_poll_until_done` treats as
still running), both done from poll 2 on. -/
def pollTraceExample (k : ℕ) : List NodeMetrics :=
  if k < 2 then [.payload true .empty none, .fetchFailure "connection refused"]
  else [.payload false .empty none, .payload false .empty none]

/-! ### Helper lemmas about the rounding and index functions -/

lemma pyRound_le (q : ℚ) : (pyRound q : ℚ) ≤ q + 1 / 2 := by
  have h0 : (⌊q⌋ : ℚ) ≤ q := Int.floor_le q
  unfold pyRound
  by_cases h1 : q - (⌊q⌋ : ℚ) < 1 / 2
  · rw [if_pos h1]; linarith
  · rw [if_neg h1]
    by_cases h2 : 1 / 2 < q - (⌊q⌋ : ℚ)
    · rw [if_pos h2]; push_cast; linarith
    · rw [if_neg h2]
      have heq : q - (⌊q⌋ : ℚ) = 1 / 2 := le_antisymm (not_lt.mp h2) (not_lt.mp h1)
      by_cases h3 : ⌊q⌋ % 2 = 0
      · rw [if_pos h3]; linarith
      · rw [if_neg h3]; push_cast; linarith

lemma le_pyRound (q : ℚ) : q - 1 / 2 ≤ (pyRound q : ℚ) := by
  have h0 : (⌊q⌋ : ℚ) ≤ q := Int.floor_le q
  have h1 : q < (⌊q⌋ : ℚ) + 1 := Int.lt_floor_add_one q
  unfold pyRound
  by_cases ha : q - (⌊q⌋ : ℚ) < 1 / 2
  · rw [if_pos ha]; linarith
  · rw [if_neg ha]
    by_cases hb : 1 / 2 < q - (⌊q⌋ : ℚ)
    · rw [if_pos hb]; push_cast; linarith
    · rw [if_neg hb]
      have heq : q - (⌊q⌋ : ℚ) = 1 / 2 := le_antisymm (not_lt.mp hb) (not_lt.mp ha)
      by_cases h3 : ⌊q⌋ % 2 = 0
      · rw [if_pos h3]; linarith
      · rw [if_neg h3]; push_cast; linarith

lemma pyRound_nonneg {q : ℚ} (h : 0 ≤ q) : 0 ≤ pyRound q := by
  have hf : 0 ≤ ⌊q⌋ := Int.floor_nonneg.mpr h
  unfold pyRound
  by_cases h1 : q - (⌊q⌋ : ℚ) < 1 / 2
  · rw [if_pos h1]; exact hf
  · rw [if_neg h1]
    by_cases h2 : 1 / 2 < q - (⌊q⌋ : ℚ)
    · rw [if_pos h2]; omega
    · rw [if_neg h2]; split <;> omega

lemma pyRound_le_int (q : ℚ) (m : ℤ) (h : q ≤ (m : ℚ)) : pyRound q ≤ m := by
  have hf : ⌊q⌋ ≤ m := by
    have := Int.floor_le_floor h
    simpa using this
  have hlt : (⌊q⌋ : ℚ) ≤ q := Int.floor_le q
  unfold pyRound
  by_cases h1 : q - (⌊q⌋ : ℚ) < 1 / 2
  · rw [if_pos h1]; exact hf
  · rw [if_neg h1]
    have hq : (⌊q⌋ : ℚ) < q := by
      rcases eq_or_lt_of_le hlt with he | hl
      · exfalso; apply h1; rw [← he]; norm_num
      · exact hl
    have hm : ⌊q⌋ < m := by
      have : (⌊q⌋ : ℚ) < (m : ℚ) := lt_of_lt_of_le hq h
      exact_mod_cast this
    by_cases h2 : 1 / 2 < q - (⌊q⌋ : ℚ)
    · rw [if_pos h2]; omega
    · rw [if_neg h2]; split <;> omega

lemma pyRound_mono {a b : ℚ} (h : a ≤ b) : pyRound a ≤ pyRound b := by
  by_contra hc
  push_neg at hc
  have h1 : (pyRound b : ℚ) + 1 ≤ (pyRound a : ℚ) := by exact_mod_cast hc
  have h2 := pyRound_le a
  have h3 := le_pyRound b
  have hab : a = b := by linarith
  subst hab
  exact absurd hc (lt_irrefl _)

lemma percentileIdx_lt {n : ℕ} (hn : 0 < n) {p : ℚ} (hp0 : 0 ≤ p) (hp1 : p ≤ 100) :
    percentileIdx n p < n := by
  unfold percentileIdx
  have hn1 : (1 : ℚ) ≤ (n : ℚ) := by exact_mod_cast hn
  have hx0 : 0 ≤ p / 100 * ((n : ℚ) - 1) := by
    apply mul_nonneg (by positivity)
    linarith
  have hp100 : p / 100 ≤ 1 := by
    rw [div_le_one (by norm_num : (0:ℚ) < 100)]; exact hp1
  have hxle : p / 100 * ((n : ℚ) - 1) ≤ (((n : ℤ) - 1 : ℤ) : ℚ) := by
    push_cast
    nlinarith
  have h1 : pyRound (p / 100 * ((n : ℚ) - 1)) ≤ (n : ℤ) - 1 := pyRound_le_int _ _ hxle
  have h2 : 0 ≤ pyRound (p / 100 * ((n : ℚ) - 1)) := pyRound_nonneg hx0
  omega

lemma percentileIdx_mono {n : ℕ} (hn : 0 < n) {p q : ℚ} (hpq : p ≤ q) :
    percentileIdx n p ≤ percentileIdx n q := by
  unfold percentileIdx
  have hn1 : (1 : ℚ) ≤ (n : ℚ) := by exact_mod_cast hn
  have hmono : pyRound (p / 100 * ((n : ℚ) - 1)) ≤ pyRound (q / 100 * ((n : ℚ) - 1)) := by
    apply pyRound_mono
    apply mul_le_mul_of_nonneg_right _ (by linarith)
    linarith
  omega

lemma livePercentileIdx_lt {n : ℕ} (hn : 0 < n) {p : ℚ} (hp0 : 0 ≤ p) (hp1 : p < 100) :
    livePercentileIdx n p < n := by
  unfold livePercentileIdx pyInt
  have h1 : ⌊(n : ℚ) * (p / 100)⌋ < (n : ℤ) := by
    rw [Int.floor_lt]
    push_cast
    have hd : p / 100 < 1 := by
      rw [div_lt_one (by norm_num : (0:ℚ) < 100)]; exact hp1
    have hnpos : (0 : ℚ) < (n : ℚ) := by exact_mod_cast hn
    nlinarith
  have h2 : 0 ≤ ⌊(n : ℚ) * (p / 100)⌋ := by
    apply Int.floor_nonneg.mpr
    apply mul_nonneg (by positivity) (by positivity)
  omega

lemma livePercentileIdx_mono {n : ℕ} {p q : ℚ} (hpq : p ≤ q) :
    livePercentileIdx n p ≤ livePercentileIdx n q := by
  unfold livePercentileIdx pyInt
  have h : ⌊(n : ℚ) * (p / 100)⌋ ≤ ⌊(n : ℚ) * (q / 100)⌋ := by
    apply Int.floor_le_floor
    apply mul_le_mul_of_nonneg_left _ (by positivity)
    linarith
  omega

lemma getD_eq_getElem_of_lt (l : List ℚ) {i : ℕ} (h : i < l.length) :
    l.getD i 0 = l[i] := by
  simp [List.getD_eq_getElem?_getD, List.getElem?_eq_getElem h]

lemma getD_mem_of_lt (l : List ℚ) {i : ℕ} (h : i < l.length) : l.getD i 0 ∈ l := by
  rw [getD_eq_getElem_of_lt l h]
  exact List.getElem_mem h

lemma sorted_getD_mono {l : List ℚ} (hs : l.Sorted (· ≤ ·)) {i j : ℕ}
    (hij : i ≤ j) (hj : j < l.length) : l.getD i 0 ≤ l.getD j 0 := by
  have hi : i < l.length := lt_of_le_of_lt hij hj
  rw [getD_eq_getElem_of_lt l hi, getD_eq_getElem_of_lt l hj]
  have := hs.rel_get_of_le (a := ⟨i, hi⟩) (b := ⟨j, hj⟩) hij
  simpa using this

/-! ### Characterization of the aggregation and snapshot loops -/

lemma foldl_aggLoopStep (tms : List ThreadMetric) : ∀ acc : AggLoopState,
    tms.foldl aggLoopStep acc =
      { total_requests := acc.total_requests +
          ((tms.filter fun t => t.error.isNone).map (fun t => t.total_requests)).sum
        total_errors := acc.total_errors +
          ((tms.filter fun t => t.error.isNone).map (fun t => t.errors)).sum
        total_latency := acc.total_latency +
          ((tms.filter fun t => t.error.isNone).map (fun t => t.total_latency)).sum
        total_elapsed :=
          ((tms.filter fun t => t.error.isNone).map (fun t => t.elapsed_seconds)).foldl
            max acc.total_elapsed
        error_threads := acc.error_threads ++ tms.filter (fun t => t.error.isSome)
        all_latencies := acc.all_latencies ++
          ((tms.filter fun t => t.error.isNone).map (fun t => t.latencies)).flatten } := by
  induction tms with
  | nil => intro acc; simp
  | cons t ts ih =>
    intro acc
    cases herr : t.error with
    | none =>
      rw [List.foldl_cons, ih]
      simp [aggLoopStep, herr, List.filter_cons, add_assoc, List.append_assoc]
    | some e =>
      rw [List.foldl_cons, ih]
      simp [aggLoopStep, herr, List.filter_cons]

lemma aggLoop_eq (tms : List ThreadMetric) :
    aggLoop tms =
      { total_requests :=
          ((tms.filter fun t => t.error.isNone).map (fun t => t.total_requests)).sum
        total_errors := ((tms.filter fun t => t.error.isNone).map (fun t => t.errors)).sum
        total_latency :=
          ((tms.filter fun t => t.error.isNone).map (fun t => t.total_latency)).sum
        total_elapsed :=
          ((tms.filter fun t => t.error.isNone).map (fun t => t.elapsed_seconds)).foldl max 0
        error_threads := tms.filter (fun t => t.error.isSome)
        all_latencies := allLatencies tms } := by
  unfold aggLoop allLatencies
  rw [foldl_aggLoopStep]
  simp

lemma foldl_snapLoopStep (pts : List WorkerSnap) : ∀ acc : SnapLoopState,
    pts.foldl snapLoopStep acc =
      { total_requests := acc.total_requests + (pts.map (fun t => t.requests)).sum
        total_errors := acc.total_errors + (pts.map (fun t => t.errors)).sum
        total_latency := acc.total_latency + (pts.map (fun t => t.total_latency)).sum
        max_elapsed := (pts.map (fun t => t.elapsed)).foldl max acc.max_elapsed
        all_latencies := acc.all_latencies ++ (pts.map (fun t => t.latencies)).flatten } := by
  induction pts with
  | nil => intro acc; simp
  | cons t ts ih =>
    intro acc
    rw [List.foldl_cons, ih]
    simp [snapLoopStep, add_assoc, List.append_assoc]

lemma snapLoop_eq (pts : List WorkerSnap) :
    snapLoop pts =
      { total_requests := (pts.map (fun t => t.requests)).sum
        total_errors := (pts.map (fun t => t.errors)).sum
        total_latency := (pts.map (fun t => t.total_latency)).sum
        max_elapsed := (pts.map (fun t => t.elapsed)).foldl max 0
        all_latencies := (pts.map (fun t => t.latencies)).flatten } := by
  unfold snapLoop
  rw [foldl_snapLoopStep]
  simp

/-! ### Agent control surface -/

/-- C6: a POST `/start` while a workload is running is rejected with the
"already running" error and changes nothing: the returned state is exactly
the input state (metrics, thread_metrics, shared resources, run state and
thread flag untouched). -/
theorem start_while_running_rejected (st : AgentState) (body : StartBody)
    (h : st.workload_running = true) :
    start_workload st body =
      (st, { success := false, message := none,
             error := some "Workload already running", status := 400 }) := by
  unfold start_workload
  rw [h]
  simp

theorem start_while_running_rejected_witness :
    start_workload ⟨true, none, .empty, [], [], false⟩ .noBody =
      (⟨true, none, .empty, [], [], false⟩,
       { success := false, message := none,
         error := some "Workload already running", status := 400 }) :=
  start_while_running_rejected ⟨true, none, .empty, [], [], false⟩ .noBody rfl

/-- C7: a POST `/stop` while idle succeeds as a no-op with `success: true`
and an unchanged state; after any `/stop` the agent field `workload_running` is
false, so a subsequent GET `/metrics` reports `running: false`; the join the
handler performs is bounded by the constant `stop_join_timeout = 10`. -/
theorem stop_idle_noop_and_reports_not_running (st : AgentState) :
    (st.workload_running = false →
      stop_workload st =
        (st, { success := true, message := some "No workload running",
               status := 200 })) ∧
    (stop_workload st).2.success = true ∧
    (stop_workload st).1.workload_running = false ∧
    (get_metrics (stop_workload st).1).running = false ∧
    stop_join_timeout = 10 := by
  cases hb : st.workload_running <;>
    simp [stop_workload, get_metrics, stop_join_timeout, hb]

theorem stop_idle_noop_witness :
    stop_workload ⟨false, none, .empty, [], [], false⟩ =
      (⟨false, none, .empty, [], [], false⟩,
       { success := true, message := some "No workload running",
         status := 200 }) :=
  (stop_idle_noop_and_reports_not_running ⟨false, none, .empty, [], [], false⟩).1 rfl

/-- C1 counterexample: a `/start` request whose (non-empty) configuration has
an *empty* target-endpoint list is NOT rejected synchronously: the handler
answers `success: true`, sets `workload_running` and starts the workload
thread — contradicting the claim that the response is `{success:false}` with
the state remaining idle. -/
theorem start_accepts_empty_endpoint_list :
    (start_workload ⟨false, none, .empty, [], [], false⟩
        (.config ⟨[], some "llama3", 2⟩)).2.success = true ∧
    (start_workload ⟨false, none, .empty, [], [], false⟩
        (.config ⟨[], some "llama3", 2⟩)).1.workload_running = true ∧
    (start_workload ⟨false, none, .empty, [], [], false⟩
        (.config ⟨[], some "llama3", 2⟩)).1.workload_thread = true :=
  ⟨rfl, rfl, rfl⟩

/-- C1 amended: only a missing (falsy) configuration body is rejected
synchronously by `/start`; a non-empty configuration with an empty
target-endpoint list or no service identifier is *accepted* — the response is
`success: true`, the state becomes running and the workload thread starts —
and the validation failure surfaces asynchronously: the Ollama executor method
`_run_benchmark` raises a `ValueError` for it inside the worker thread. -/
theorem start_validation_is_asynchronous (st : AgentState) (cfg : WorkloadConfig)
    (hidle : st.workload_running = false) :
    start_workload st .noBody =
      (st, { success := false, message := none,
             error := some "No workload configuration provided", status := 400 }) ∧
    ((cfg.server_endpoints = [] ∨ cfg.model = none) →
      (start_workload st (.config cfg)).2.success = true ∧
      (start_workload st (.config cfg)).1.workload_running = true ∧
      (start_workload st (.config cfg)).1.workload_thread = true ∧
      run_benchmark_config_error cfg ≠ none) := by
  constructor
  · unfold start_workload
    rw [hidle]
    simp
  · intro hbad
    unfold start_workload
    rw [hidle]
    refine ⟨by simp, by simp, by simp, ?_⟩
    unfold run_benchmark_config_error
    rcases hbad with he | hm
    · rw [he]
      simp
    · by_cases hse : cfg.server_endpoints.isEmpty <;> simp [hse, hm]

theorem start_validation_is_asynchronous_witness :
    run_benchmark_config_error ⟨[], none, 1⟩ ≠ none :=
  ((start_validation_is_asynchronous ⟨false, none, .empty, [], [], false⟩
      ⟨[], none, 1⟩ rfl).2 (Or.inl rfl)).2.2.2

/-! ### Controller polling loop -/

lemma pollAux_some_spec (trace : ℕ → List NodeMetrics) :
    ∀ fuel start k, pollAux trace fuel start = some k →
      allDone (trace k) = true ∧ start ≤ k ∧
      ∀ j, start ≤ j → j < k → allDone (trace j) = false := by
  intro fuel
  induction fuel with
  | zero => intro start k h; simp [pollAux] at h
  | succ n ih =>
    intro start k h
    simp only [pollAux] at h
    by_cases hd : allDone (trace start) = true
    · rw [if_pos hd] at h
      injection h with h
      subst h
      exact ⟨hd, le_refl _,
        fun j hj1 hj2 => absurd (lt_of_le_of_lt hj1 hj2) (lt_irrefl _)⟩
    · rw [if_neg hd] at h
      obtain ⟨h1, h2, h3⟩ := ih (start + 1) k h
      refine ⟨h1, by omega, fun j hj1 hj2 => ?_⟩
      rcases eq_or_lt_of_le hj1 with rfl | hlt
      · rw [Bool.not_eq_true] at hd
        exact hd
      · exact h3 j (by omega) hj2

lemma pollAux_none_spec (trace : ℕ → List NodeMetrics) :
    ∀ fuel start, (∀ j, start ≤ j → j < start + fuel → allDone (trace j) = false) →
      pollAux trace fuel start = none := by
  intro fuel
  induction fuel with
  | zero => intro start _; rfl
  | succ n ih =>
    intro start h
    simp only [pollAux]
    rw [if_neg]
    · exact ih (start + 1) (fun j hj1 hj2 => h j (by omega) (by omega))
    · rw [h start (le_refl _) (by omega)]
      simp

/-- C8: the polling loop returns at poll `k` only if every node reports
`running: false` at poll `k` and at every earlier poll at least one node was
still reported running (a node whose fetch failed counts as running, since
`m.get("running", True)` defaults to true); and as long as some node still
reports running the loop keeps polling — it never times out on its own
(within any observation horizon it has produced no result). -/
theorem poll_waits_for_all_nodes (trace : ℕ → List NodeMetrics) (fuel k : ℕ) :
    (poll_until_done trace fuel = some k →
      allDone (trace k) = true ∧ ∀ j, j < k → allDone (trace j) = false) ∧
    ((∀ j, j < fuel → allDone (trace j) = false) → poll_until_done trace fuel = none) := by
  constructor
  · intro h
    obtain ⟨h1, _, h3⟩ := pollAux_some_spec trace fuel 0 k h
    exact ⟨h1, fun j hj => h3 j (Nat.zero_le _) hj⟩
  · intro h
    exact pollAux_none_spec trace fuel 0 (fun j _ hj => h j (by omega))

theorem poll_waits_for_all_nodes_witness :
    (allDone (pollTraceExample 2) = true ∧
      ∀ j, j < 2 → allDone (pollTraceExample j) = false) ∧
    poll_until_done pollTraceExample 2 = none :=
  ⟨(poll_waits_for_all_nodes pollTraceExample 5 2).1 (by decide),
   (poll_waits_for_all_nodes pollTraceExample 2 0).2 (by decide)⟩

/-! ### Sampler history -/

lemma iterSnapshots_length (k : ℕ) : ∀ st : ExecutorSnapState,
    st.per_thread_metrics ≠ [] →
    (iterSnapshots k st).snapshots.length = st.snapshots.length + k := by
  induction k with
  | zero => intro st _; rfl
  | succ n ih =>
    intro st h
    have hne : st.per_thread_metrics.isEmpty ≠ true := by
      simp [List.isEmpty_eq_false, h]
    simp only [iterSnapshots]
    rw [ih]
    · unfold snapshot_current_metrics
      rw [if_neg hne]
      simp
      omega
    · unfold snapshot_current_metrics
      rw [if_neg hne]
      exact h

/-- C9 amended: the sampler history is *unbounded*: every tick taken with a
non-empty per-thread metrics map appends exactly one snapshot, so after `k`
ticks the history holds `k` more entries than before — no fixed bound on its
length exists or is enforced. -/
theorem sampler_history_grows_each_tick (st : ExecutorSnapState) (k : ℕ)
    (h : st.per_thread_metrics ≠ []) :
    (iterSnapshots k st).snapshots.length = st.snapshots.length + k :=
  iterSnapshots_length k st h

theorem sampler_history_grows_each_tick_witness :
    (iterSnapshots 3 ⟨[⟨0, 0, 0, 0, []⟩], .empty, []⟩).snapshots.length = 0 + 3 :=
  sampler_history_grows_each_tick ⟨[⟨0, 0, 0, 0, []⟩], .empty, []⟩ 3 (by simp)

/-- C9 counterexample: there is no fixed bound `B` that the snapshot history
never exceeds — for a run whose sampler keeps ticking (here with one active
worker entry), the history length surpasses every candidate bound. -/
theorem snapshots_history_has_no_fixed_bound :
    ¬ ∃ B : ℕ, ∀ k : ℕ,
      (iterSnapshots k ⟨[⟨0, 0, 0, 0, []⟩], .empty, []⟩).snapshots.length ≤ B := by
  rintro ⟨B, hB⟩
  have h := hB (B + 1)
  rw [iterSnapshots_length (B + 1) _ (by simp)] at h
  simp at h

/-! ### Aggregation: inversion and percentile facts -/

lemma aggregate_metrics_some {tms : List ThreadMetric} {a : AggregateMetrics}
    (ha : aggregate_metrics tms = some a) :
    tms ≠ [] ∧
    a = { total_requests := (aggLoop tms).total_requests
          errors := (aggLoop tms).total_errors
          elapsed_seconds := (aggLoop tms).total_elapsed
          avg_latency_seconds :=
            if 0 < (aggLoop tms).total_requests then
              (aggLoop tms).total_latency / ((aggLoop tms).total_requests : ℚ)
            else 0
          p50_latency_seconds := percentile (aggLoop tms).all_latencies.mergeSort 50
          p90_latency_seconds := percentile (aggLoop tms).all_latencies.mergeSort 90
          p99_latency_seconds := percentile (aggLoop tms).all_latencies.mergeSort 99
          throughput_rps :=
            if 0 < (aggLoop tms).total_elapsed then
              ((aggLoop tms).total_requests : ℚ) / (aggLoop tms).total_elapsed
            else 0
          num_threads := tms.length
          thread_errors :=
            if (aggLoop tms).error_threads.isEmpty then none
            else some (aggLoop tms).error_threads } := by
  unfold aggregate_metrics at ha
  by_cases h : tms.isEmpty = true
  · rw [if_pos h] at ha; cases ha
  · rw [if_neg h] at ha
    refine ⟨by simpa using h, ?_⟩
    injection ha with ha
    exact ha.symm

lemma percentile_mem {lat : List ℚ} (h : lat ≠ []) {p : ℚ}
    (hp0 : 0 ≤ p) (hp1 : p ≤ 100) : percentile lat.mergeSort p ∈ lat := by
  have hn : 0 < (lat.mergeSort).length := by
    simp only [List.length_mergeSort]
    exact List.length_pos.mpr h
  have hne : (lat.mergeSort).isEmpty = false := by
    rw [List.isEmpty_eq_false]
    exact List.length_pos.mp hn
  unfold percentile
  rw [hne]
  simp only [Bool.false_eq_true, if_false]
  have hidx := percentileIdx_lt hn hp0 hp1
  have hmem := getD_mem_of_lt _ hidx
  rw [List.mem_mergeSort] at hmem
  exact hmem

lemma percentile_mono (lat : List ℚ) {p q : ℚ}
    (hp0 : 0 ≤ p) (hpq : p ≤ q) (hq1 : q ≤ 100) :
    percentile lat.mergeSort p ≤ percentile lat.mergeSort q := by
  rcases eq_or_ne lat [] with rfl | h
  · simp [percentile]
  · have hn : 0 < (lat.mergeSort).length := by
      simp only [List.length_mergeSort]
      exact List.length_pos.mpr h
    have hne : (lat.mergeSort).isEmpty = false := by
      rw [List.isEmpty_eq_false]
      exact List.length_pos.mp hn
    unfold percentile
    rw [hne]
    simp only [Bool.false_eq_true, if_false]
    exact sorted_getD_mono (List.sorted_mergeSort' lat)
      (percentileIdx_mono hn hpq) (percentileIdx_lt hn (le_trans hp0 hpq) hq1)

lemma live_getD_mono {L : List ℚ} {p q : ℚ}
    (hp0 : 0 ≤ p) (hpq : p ≤ q) (hq : q < 100) :
    (if L.isEmpty then 0 else (L.mergeSort).getD (livePercentileIdx L.length p) 0) ≤
    (if L.isEmpty then 0 else (L.mergeSort).getD (livePercentileIdx L.length q) 0) := by
  rcases eq_or_ne L [] with rfl | h
  · simp
  · have hn : 0 < L.length := List.length_pos.mpr h
    have hne : L.isEmpty = false := by
      rw [List.isEmpty_eq_false]; exact h
    rw [hne]
    simp only [Bool.false_eq_true, if_false]
    apply sorted_getD_mono (List.sorted_mergeSort' L) (livePercentileIdx_mono hpq)
    simp only [List.length_mergeSort]
    exact livePercentileIdx_lt hn (le_trans hp0 hpq) hq

lemma natsum_zero {l : List ℕ} (h : l.sum = 0) : ∀ x ∈ l, x = 0 := by
  induction l with
  | nil => simp
  | cons a as ih =>
    rw [List.sum_cons] at h
    have ha : a = 0 := by omega
    have has : as.sum = 0 := by omega
    intro x hx
    rcases List.mem_cons.mp hx with rfl | hxs
    · exact ha
    · exact ih has x hxs

/-- C3: the `total_requests` of the final aggregation is exactly the sum of the
request counts of the workers that returned metrics (entries without an
`"error"` key); the error-only entries are excluded from the numeric
aggregation and reported separately as the worker-error list (`None` when
there were none); every entry still counts towards `num_threads`. -/
theorem aggregated_totals_and_worker_errors (tms : List ThreadMetric)
    (a : AggregateMetrics) (ha : aggregate_metrics tms = some a) :
    a.total_requests =
      ((tms.filter fun t => t.error.isNone).map (fun t => t.total_requests)).sum ∧
    a.thread_errors =
      (if (tms.filter fun t => t.error.isSome).isEmpty then none
       else some (tms.filter fun t => t.error.isSome)) ∧
    a.num_threads = tms.length := by
  obtain ⟨-, rfl⟩ := aggregate_metrics_some ha
  refine ⟨?_, ?_, rfl⟩ <;> simp [aggLoop_eq]

/-- C4: each aggregated percentile (p50/p90/p99) is a value present in the
collected latency sequence — nearest-rank selection, never interpolation —
and when no latencies were collected all three percentiles are 0. -/
theorem percentiles_are_input_values (tms : List ThreadMetric)
    (a : AggregateMetrics) (ha : aggregate_metrics tms = some a) :
    (allLatencies tms ≠ [] →
      a.p50_latency_seconds ∈ allLatencies tms ∧
      a.p90_latency_seconds ∈ allLatencies tms ∧
      a.p99_latency_seconds ∈ allLatencies tms) ∧
    (allLatencies tms = [] →
      a.p50_latency_seconds = 0 ∧ a.p90_latency_seconds = 0 ∧
      a.p99_latency_seconds = 0) := by
  obtain ⟨-, rfl⟩ := aggregate_metrics_some ha
  have hL : (aggLoop tms).all_latencies = allLatencies tms := by
    rw [aggLoop_eq]
  constructor
  · intro h
    refine ⟨?_, ?_, ?_⟩ <;>
      · show percentile (aggLoop tms).all_latencies.mergeSort _ ∈ allLatencies tms
        rw [hL]
        exact percentile_mem h (by norm_num) (by norm_num)
  · intro h
    refine ⟨?_, ?_, ?_⟩ <;>
      · show percentile (aggLoop tms).all_latencies.mergeSort _ = 0
        rw [hL, h]
        simp [percentile]


theorem aggregated_totals_witness :
    ({ total_requests := 2, errors := 1, elapsed_seconds := 4,
       avg_latency_seconds := 3 / 2, p50_latency_seconds := 0,
       p90_latency_seconds := 0, p99_latency_seconds := 0,
       throughput_rps := 1 / 2, num_threads := 2,
       thread_errors := some [⟨some "boom", 1, 0, 0, 0, 0, []⟩] } :
       AggregateMetrics).total_requests =
      ((([⟨none, 0, 2, 1, 3, 4, []⟩, ⟨some "boom", 1, 0, 0, 0, 0, []⟩] :
          List ThreadMetric).filter fun t => t.error.isNone).map
        (fun t => t.total_requests)).sum :=
  (aggregated_totals_and_worker_errors
    [⟨none, 0, 2, 1, 3, 4, []⟩, ⟨some "boom", 1, 0, 0, 0, 0, []⟩] _
    (by simp [aggregate_metrics, aggLoop, aggLoopStep, percentile]
        norm_num)).1

theorem percentiles_are_input_values_witness :
    ({ total_requests := 3, errors := 0, elapsed_seconds := 2,
       avg_latency_seconds := 2, p50_latency_seconds := 4,
       p90_latency_seconds := 4, p99_latency_seconds := 4,
       throughput_rps := 3 / 2, num_threads := 1,
       thread_errors := none } : AggregateMetrics).p50_latency_seconds ∈
      allLatencies [⟨none, 7, 3, 0, 6, 2, [4]⟩] ∧
    ({ total_requests := 3, errors := 0, elapsed_seconds := 2,
       avg_latency_seconds := 2, p50_latency_seconds := 4,
       p90_latency_seconds := 4, p99_latency_seconds := 4,
       throughput_rps := 3 / 2, num_threads := 1,
       thread_errors := none } : AggregateMetrics).p90_latency_seconds ∈
      allLatencies [⟨none, 7, 3, 0, 6, 2, [4]⟩] ∧
    ({ total_requests := 3, errors := 0, elapsed_seconds := 2,
       avg_latency_seconds := 2, p50_latency_seconds := 4,
       p90_latency_seconds := 4, p99_latency_seconds := 4,
       throughput_rps := 3 / 2, num_threads := 1,
       thread_errors := none } : AggregateMetrics).p99_latency_seconds ∈
      allLatencies [⟨none, 7, 3, 0, 6, 2, [4]⟩] :=
  (percentiles_are_input_values [⟨none, 7, 3, 0, 6, 2, [4]⟩] _
    (by simp [aggregate_metrics, aggLoop, aggLoopStep, percentile, percentileIdx,
          pyRound]
        norm_num)).1
    (by simp [allLatencies])

/-- C5: whenever `total_requests` is 0 — in the final aggregation as well as
in the live snapshot — the average latency, throughput and all three
percentiles are exactly 0, with the division guards avoiding any division.
The per-worker hypothesis that a worker with no recorded requests has no
recorded latencies holds for every producer in the repository: the Ollama
executor returns no latency list at all and the dummy executor records one
latency per counted request. -/
theorem zero_requests_all_zero (tms : List ThreadMetric) (pts : List WorkerSnap) :
    (∀ a : AggregateMetrics, aggregate_metrics tms = some a →
      (∀ t ∈ tms, t.latencies.length ≤ t.total_requests) →
      a.total_requests = 0 →
      a.avg_latency_seconds = 0 ∧ a.throughput_rps = 0 ∧
      a.p50_latency_seconds = 0 ∧ a.p90_latency_seconds = 0 ∧
      a.p99_latency_seconds = 0) ∧
    ((∀ t ∈ pts, t.latencies.length ≤ t.requests) →
      (snapshotAggregate pts).total_requests = 0 →
      (snapshotAggregate pts).avg_latency_seconds = 0 ∧
      (snapshotAggregate pts).throughput_rps = 0 ∧
      (snapshotAggregate pts).p50_latency_seconds = 0 ∧
      (snapshotAggregate pts).p90_latency_seconds = 0 ∧
      (snapshotAggregate pts).p99_latency_seconds = 0) := by
  constructor
  · intro a ha hlen h0
    obtain ⟨-, rfl⟩ := aggregate_metrics_some ha
    have hreq :
        ((tms.filter fun t => t.error.isNone).map (fun t => t.total_requests)).sum = 0 := by
      simpa [aggLoop_eq] using h0
    have hallnil : allLatencies tms = [] := by
      unfold allLatencies
      rw [List.flatten_eq_nil_iff]
      intro l hl
      obtain ⟨t, ht, rfl⟩ := List.mem_map.mp hl
      have ht0 : t.total_requests = 0 :=
        natsum_zero hreq _ (List.mem_map.mpr ⟨t, ht, rfl⟩)
      have hle := hlen t (List.mem_of_mem_filter ht)
      rw [ht0] at hle
      exact List.length_eq_zero.mp (Nat.le_zero.mp hle)
    have hLnil : (aggLoop tms).all_latencies = [] := by
      rw [aggLoop_eq]
      exact hallnil
    refine ⟨?_, ?_, ?_, ?_, ?_⟩
    · show (if 0 < (aggLoop tms).total_requests then _ else 0) = 0
      rw [aggLoop_eq]
      simp [hreq]
    · show (if 0 < (aggLoop tms).total_elapsed then
          ((aggLoop tms).total_requests : ℚ) / (aggLoop tms).total_elapsed else 0) = 0
      rw [aggLoop_eq]
      simp [hreq]
    · show percentile (aggLoop tms).all_latencies.mergeSort _ = 0
      rw [hLnil]
      simp [percentile]
    · show percentile (aggLoop tms).all_latencies.mergeSort _ = 0
      rw [hLnil]
      simp [percentile]
    · show percentile (aggLoop tms).all_latencies.mergeSort _ = 0
      rw [hLnil]
      simp [percentile]
  · intro hlen h0
    have hreq : (pts.map (fun t => t.requests)).sum = 0 := by
      simpa [snapshotAggregate, snapLoop_eq] using h0
    have hallnil : (pts.map (fun t => t.latencies)).flatten = [] := by
      rw [List.flatten_eq_nil_iff]
      intro l hl
      obtain ⟨t, ht, rfl⟩ := List.mem_map.mp hl
      have ht0 : t.requests = 0 := natsum_zero hreq _ (List.mem_map.mpr ⟨t, ht, rfl⟩)
      have hle := hlen t ht
      rw [ht0] at hle
      exact List.length_eq_zero.mp (Nat.le_zero.mp hle)
    refine ⟨?_, ?_, ?_, ?_, ?_⟩ <;>
      simp [snapshotAggregate, snapLoop_eq, hreq, hallnil]

theorem zero_requests_all_zero_witness :
    ({ total_requests := 0, errors := 0, elapsed_seconds := 0,
       avg_latency_seconds := 0, p50_latency_seconds := 0,
       p90_latency_seconds := 0, p99_latency_seconds := 0,
       throughput_rps := 0, num_threads := 1,
       thread_errors := none } : AggregateMetrics).avg_latency_seconds = 0 ∧
    (snapshotAggregate [⟨0, 0, 0, 5, []⟩]).throughput_rps = 0 :=
  ⟨((zero_requests_all_zero [⟨none, 0, 0, 0, 0, 0, []⟩] [⟨0, 0, 0, 5, []⟩]).1 _
      (by simp [aggregate_metrics, aggLoop, aggLoopStep, percentile])
      (by simp) (by simp)).1,
   ((zero_requests_all_zero [⟨none, 0, 0, 0, 0, 0, []⟩] [⟨0, 0, 0, 5, []⟩]).2
      (by simp) (by simp [snapshotAggregate, snapLoop, snapLoopStep])).2.1⟩

/-- C10: the percentiles are monotone in p: `p50 ≤ p90 ≤ p99`, both in the
final aggregation (index `round(p/100 * (n-1))` is non-decreasing in p) and
in the live snapshot (index `int(n * p/100)` is non-decreasing in p), over
the ascending-sorted latency list. -/
theorem percentiles_monotone_in_p (tms : List ThreadMetric) (pts : List WorkerSnap)
    (a : AggregateMetrics) :
    (aggregate_metrics tms = some a →
      a.p50_latency_seconds ≤ a.p90_latency_seconds ∧
      a.p90_latency_seconds ≤ a.p99_latency_seconds) ∧
    ((snapshotAggregate pts).p50_latency_seconds ≤
       (snapshotAggregate pts).p90_latency_seconds ∧
     (snapshotAggregate pts).p90_latency_seconds ≤
       (snapshotAggregate pts).p99_latency_seconds) := by
  constructor
  · intro ha
    obtain ⟨-, rfl⟩ := aggregate_metrics_some ha
    constructor
    · exact percentile_mono _ (by norm_num) (by norm_num) (by norm_num)
    · exact percentile_mono _ (by norm_num) (by norm_num) (by norm_num)
  · constructor
    · show (if (snapLoop pts).all_latencies.isEmpty then (0 : ℚ) else _) ≤
        (if (snapLoop pts).all_latencies.isEmpty then (0 : ℚ) else _)
      exact live_getD_mono (by norm_num) (by norm_num) (by norm_num)
    · show (if (snapLoop pts).all_latencies.isEmpty then (0 : ℚ) else _) ≤
        (if (snapLoop pts).all_latencies.isEmpty then (0 : ℚ) else _)
      exact live_getD_mono (by norm_num) (by norm_num) (by norm_num)

theorem percentiles_monotone_in_p_witness :
    ({ total_requests := 1, errors := 0, elapsed_seconds := 1,
       avg_latency_seconds := 2, p50_latency_seconds := 2,
       p90_latency_seconds := 2, p99_latency_seconds := 2,
       throughput_rps := 1, num_threads := 1,
       thread_errors := none } : AggregateMetrics).p50_latency_seconds ≤
      ({ total_requests := 1, errors := 0, elapsed_seconds := 1,
         avg_latency_seconds := 2, p50_latency_seconds := 2,
         p90_latency_seconds := 2, p99_latency_seconds := 2,
         throughput_rps := 1, num_threads := 1,
         thread_errors := none } : AggregateMetrics).p90_latency_seconds :=
  ((percentiles_monotone_in_p [⟨none, 0, 1, 0, 2, 1, [2]⟩] [] _).1
    (by norm_num [aggregate_metrics, aggLoop, aggLoopStep, percentile, percentileIdx,
          pyRound])).1

/-- C2 counterexample: live snapshot and final aggregation disagree on the
very same raw latencies `[1, 2]`: the live snapshot computes
`p50 = all_latencies[int(2 * 0.50)] = all_latencies[1] = 2`, while the final
aggregation computes `p50 = all_latencies[int(round(0.50 * 1))] =
all_latencies[0] = 1`. -/
theorem live_and_final_p50_differ :
    (snapshotAggregate [⟨2, 0, 3, 1, [1, 2]⟩]).p50_latency_seconds = 2 ∧
    (aggregate_metrics [⟨none, 0, 2, 0, 3, 1, [1, 2]⟩]).map
      AggregateMetrics.p50_latency_seconds = some 1 := by
  have hms : ([1, 2] : List ℚ).mergeSort = [1, 2] :=
    List.mergeSort_of_sorted (by norm_num)
  have hfl : ⌊(1 : ℚ) / 2⌋ = 0 := by
    rw [Int.floor_eq_zero_iff]
    constructor <;> norm_num
  have hfr : Int.fract ((50 : ℚ) / 100 * (2 - 1)) = 1 / 2 := by
    rw [show (50 : ℚ) / 100 * (2 - 1) = 1 / 2 by norm_num, Int.fract, hfl]
    norm_num
  constructor
  · simp [snapshotAggregate, snapLoop, snapLoopStep, hms, livePercentileIdx, pyInt]
    norm_num
  · simp [aggregate_metrics, aggLoop, aggLoopStep, hms, percentile, percentileIdx,
      pyRound, hfr]
    norm_num

/-- C2 amended: the live snapshot and the final aggregation both select a
nearest-rank element of the same ascending-sorted latency list, but with
*different* index formulas — live `int(n * p/100)`, final
`int(round(p/100 * (n-1)))` with half-even rounding — so live and final
percentiles computed from the same raw latencies can differ (see the
counterexample), although the two selected ranks never differ by more than
one position. -/
theorem rank_rules_differ_by_at_most_one (n : ℕ) (p : ℚ)
    (hn : 0 < n) (hp0 : 0 ≤ p) (hp1 : p ≤ 100) :
    ((percentileIdx n p : ℤ) - (livePercentileIdx n p : ℤ)).natAbs ≤ 1 := by
  unfold percentileIdx livePercentileIdx pyInt
  have hn1 : (1 : ℚ) ≤ (n : ℚ) := by exact_mod_cast hn
  have hp100a : 0 ≤ p / 100 := by positivity
  have hp100b : p / 100 ≤ 1 := by
    rw [div_le_one (by norm_num : (0:ℚ) < 100)]; exact hp1
  have hx0 : 0 ≤ p / 100 * ((n : ℚ) - 1) := mul_nonneg hp100a (by linarith)
  have hy0 : 0 ≤ (n : ℚ) * (p / 100) := mul_nonneg (by positivity) hp100a
  have hr1 := pyRound_le (p / 100 * ((n : ℚ) - 1))
  have hr2 := le_pyRound (p / 100 * ((n : ℚ) - 1))
  have hf1 : (⌊(n : ℚ) * (p / 100)⌋ : ℚ) ≤ (n : ℚ) * (p / 100) := Int.floor_le _
  have hf2 : (n : ℚ) * (p / 100) - 1 < (⌊(n : ℚ) * (p / 100)⌋ : ℚ) := by
    linarith [Int.lt_floor_add_one ((n : ℚ) * (p / 100))]
  have hyx : (n : ℚ) * (p / 100) - p / 100 * ((n : ℚ) - 1) = p / 100 := by ring
  have hub : pyRound (p / 100 * ((n : ℚ) - 1)) - ⌊(n : ℚ) * (p / 100)⌋ ≤ 1 := by
    by_contra hc
    push_neg at hc
    have h1 : (2 : ℤ) ≤ pyRound (p / 100 * ((n : ℚ) - 1)) - ⌊(n : ℚ) * (p / 100)⌋ := by
      omega
    have h2 : (2 : ℚ) ≤ (pyRound (p / 100 * ((n : ℚ) - 1)) : ℚ) -
        (⌊(n : ℚ) * (p / 100)⌋ : ℚ) := by exact_mod_cast h1
    linarith
  have hlb : (-1 : ℤ) ≤ pyRound (p / 100 * ((n : ℚ) - 1)) - ⌊(n : ℚ) * (p / 100)⌋ := by
    by_contra hc
    push_neg at hc
    have h1 : pyRound (p / 100 * ((n : ℚ) - 1)) - ⌊(n : ℚ) * (p / 100)⌋ ≤ -2 := by
      omega
    have h2 : (pyRound (p / 100 * ((n : ℚ) - 1)) : ℚ) -
        (⌊(n : ℚ) * (p / 100)⌋ : ℚ) ≤ -2 := by exact_mod_cast h1
    linarith
  have hpn : 0 ≤ pyRound (p / 100 * ((n : ℚ) - 1)) := pyRound_nonneg hx0
  have hfn : 0 ≤ ⌊(n : ℚ) * (p / 100)⌋ := Int.floor_nonneg.mpr hy0
  omega

theorem rank_rules_differ_witness :
    ((percentileIdx 2 50 : ℤ) - (livePercentileIdx 2 50 : ℤ)).natAbs ≤ 1 :=
  rank_rules_differ_by_at_most_one 2 50 (by norm_num) (by norm_num) (by norm_num)
